import Mathlib

/-!
Verification development for `subdomain_enum.py`, a two-stage subdomain
reconnaissance pipeline (subfinder enumeration, httpx liveness probing,
report generation, webhook notification).

Strings are modelled as `List Char` so that the line-splitting, stripping
and joining done by the Python code can be reasoned about structurally.
External collaborators (the `subfinder`/`httpx` binaries, `json.loads`,
`requests.post`, the filesystem) are modelled as explicit parameters:
a tool invocation outcome, a JSON-parse oracle, directory listings and
file contents.
-/

namespace SubEnum

/-- Python strings are modelled as lists of characters. -/
abbrev Str := List Char

/-- Python's `str.strip()`: remove leading and trailing whitespace. -/
def pyStrip (s : Str) : Str :=
  ((s.dropWhile Char.isWhitespace).reverse.dropWhile Char.isWhitespace).reverse

/-- Python's `str.split(c)` for a one-character separator: splitting the
empty string gives `[""]`, and each separator occurrence starts a new
chunk. -/
def splitOnChar (c : Char) : Str → List Str
  | [] => [[]]
  | d :: cs =>
    let r := splitOnChar c cs
    if d = c then [] :: r else (d :: r.headI) :: r.tail

/-- Concatenation of lines, each followed by the character `c`.  With
`c = '\n'` this is exactly the file content produced by the write loop
`for subdomain in unique_subdomains: f.write(f"{subdomain}\n")`
(src/subdomain_enum.py lines 100-102). -/
def joinWith (c : Char) : List Str → Str
  | [] => []
  | l :: ls => l ++ c :: joinWith c ls

/-- Python's file-line iteration `for line in f`: the chunks delimited by
`'\n'`, each with its `'\n'` terminator kept, and no final chunk when the
content ends in a newline.  `sum(1 for _ in f)` (line 135) is the length
of this list. -/
def pyLines (s : Str) : List Str :=
  let parts := splitOnChar '\n' s
  (parts.dropLast.map (fun l => l ++ ['\n'])) ++
    (if parts.getLastD [] = [] then [] else [parts.getLastD []])

/-- Reading a subdomain-list file back, as done in `main`
(src/subdomain_enum.py line 360):
`[line.strip() for line in f if line.strip()]` — strip every line and
drop the blank ones.  Since `strip` removes the `'\n'` terminators, the
result over `pyLines` equals the result over `splitOnChar '\n'`. -/
def loadLines (content : Str) : List Str :=
  ((splitOnChar '\n' content).map pyStrip).filter (fun s => !s.isEmpty)

/-- The deduplication loop of `run_subfinder` (lines 90-95):
`seen` collects the hostnames already emitted, and a hostname is appended
to the output exactly when it is not yet in `seen`. -/
def dedupAcc (seen : List Str) : List Str → List Str
  | [] => []
  | x :: xs => if x ∈ seen then dedupAcc seen xs else x :: dedupAcc (x :: seen) xs

/-- Order-preserving deduplication, started with an empty `seen` set. -/
def dedup (l : List Str) : List Str := dedupAcc [] l

/-- Modelled from the spec: "deduplicate preserving first-seen order".
The first element of the input is kept, and the remainder is processed
with every later copy of it removed.  This is the specification-side
description of first-appearance deduplication, to be compared with the
source-side `dedup`. -/
def specFirstOccur : List Str → List Str
  | [] => []
  | x :: xs => x :: specFirstOccur (xs.filter (fun y => decide (y ≠ x)))
termination_by l => l.length
decreasing_by
  simp only [List.length_cons]
  exact Nat.lt_succ_of_le (List.length_filter_le _ _)

/-- The line list `run_subfinder` works on (lines 84-87):
`result.stdout.strip().split('\n')` followed by dropping the lines that
are blank after stripping (the kept lines themselves stay unstripped). -/
def subLines (stdout : Str) : List Str :=
  (splitOnChar '\n' (pyStrip stdout)).filter (fun s => !(pyStrip s).isEmpty)

/-- The deduplicated subdomain list returned by `run_subfinder` on a
successful tool run (lines 84-95). -/
def collectSubdomains (stdout : Str) : List Str :=
  dedup (subLines stdout)

/-- The content of the subdomain-list file written by `run_subfinder`
(lines 100-102): each deduplicated hostname followed by a newline. -/
def subfinderFile (stdout : Str) : Str :=
  joinWith '\n' (collectSubdomains stdout)

/-- Outcome of one external tool invocation through `subprocess.run`:
a completed process (return code, stdout, stderr), a raised
`subprocess.TimeoutExpired`, or any other raised exception. -/
inductive ToolRes where
  | ok (rc : Int) (out err : Str)
  | timeout
  | exc
deriving DecidableEq

/-- Severity of a `print_status` line.  Plain informational lines are not
tracked; only the warning/error/success lines that the claims are about. -/
inductive StatusKind where
  | success
  | warning
  | error
deriving DecidableEq

/-- Exceptions of the Python code that the embedding distinguishes. -/
inductive PyExc where
  | timeoutExpired
  | nameError
  | attributeError
  | otherExc
deriving DecidableEq

/-- `run_subfinder` (src/subdomain_enum.py lines 63-121): on a zero exit
code the stdout is split, blank-filtered, deduplicated, written to the
output file and returned; a non-zero exit code, a timeout or any other
exception yields an empty list, no file, and an error status line.
Result: (returned subdomain list, written file content, status lines). -/
def run_subfinder (tool : ToolRes) : List Str × Option Str × List StatusKind :=
  match tool with
  | .ok rc out _err =>
    if rc ≠ 0 then ([], none, [.error])
    else (collectSubdomains out, some (subfinderFile out), [.success])
  | .timeout => ([], none, [.error])
  | .exc => ([], none, [.error])

/-- Values of the JSON records emitted one-per-line by httpx. -/
inductive JVal where
  | s (v : Str)
  | n (v : Int)
  | arr (vs : List Str)
  | b (v : Bool)
  | null
deriving DecidableEq

/-- A parsed JSON object (Python dict), as an ordered key/value list. -/
abbrev JObj := List (Str × JVal)

/-- Field access `d.get(k)` on a parsed record. -/
def lookupKey (o : JObj) (k : Str) : Option JVal :=
  (o.find? (fun p => decide (p.1 = k))).map (fun p => p.2)

/-- Python's `line.startswith('http')` (line 182). -/
def startsWithHttp : Str → Bool
  | 'h' :: 't' :: 't' :: 'p' :: _ => true
  | _ => false

/-- The fallback record `{'input': line, 'url': line}` built for a
non-JSON line that starts with "http" (line 183). -/
def minimalRec (line : Str) : JObj :=
  [("input".data, JVal.s line), ("url".data, JVal.s line)]

/-- One iteration of the output-file reading loop of `run_httpx`
(lines 174-183): strip the line; skip it when blank; otherwise try
`json.loads` (modelled by the parse oracle `J`); on parse failure keep a
minimal URL record when the line starts with "http", else drop the line.
`json.loads` belongs to an external library, so it enters the model as
the oracle parameter `J`. -/
def parseLine (J : Str → Option JObj) (raw : Str) : Option JObj :=
  let line := pyStrip raw
  if line.isEmpty then none
  else
    match J line with
    | some d => some d
    | none => if startsWithHttp line then some (minimalRec line) else none

/-- The whole reading loop of `run_httpx` over an output file's content
(lines 172-183).  Python's `for line in f` followed by `line.strip()` is
equivalent to stripping the chunks of `splitOnChar '\n'`: the kept
terminators are stripped away, and the extra empty chunk after a final
newline is blank and hence skipped. -/
def parseHttpxOutput (J : Str → Option JObj) (content : Str) : List JObj :=
  (splitOnChar '\n' content).filterMap (parseLine J)

/-- The `try:` block of `run_httpx` (lines 154-209): `subprocess.run`
may raise (timeout or other), otherwise the output file — `outContent`,
`none` when the tool produced no file — is read and parsed; an exit code
outside {0, 1} adds an error status line but the salvaged records are
still returned, and a success line always reports the record count. -/
def run_httpxBody (J : Str → Option JObj) (tool : ToolRes) (outContent : Option Str) :
    Except PyExc (List JObj × List StatusKind) :=
  match tool with
  | .timeout => .error .timeoutExpired
  | .exc => .error .otherExc
  | .ok rc _out _err =>
    let msgs : List StatusKind := if rc ≠ 0 ∧ rc ≠ 1 then [.error] else []
    let hosts := match outContent with
      | none => []
      | some oc => parseHttpxOutput J oc
    .ok (hosts, msgs ++ [.success])

/-- `run_httpx` (lines 125-209).  `inContent` is what the filesystem
holds at the input path (`none` when `os.path.exists` fails).  A missing
input file yields an error line and no records; an input with zero lines
yields a warning and no records; otherwise the `try:` body runs and its
`except subprocess.TimeoutExpired` / `except Exception` handlers turn
any raised exception into an empty result with an error line. -/
def run_httpx (J : Str → Option JObj) (tool : ToolRes)
    (inContent : Option Str) (outContent : Option Str) :
    List JObj × List StatusKind :=
  match inContent with
  | none => ([], [.error])
  | some c =>
    if (pyLines c).length = 0 then ([], [.warning])
    else
      match run_httpxBody J tool outContent with
      | .ok r => r
      | .error .timeoutExpired => ([], [.error])
      | .error _ => ([], [.error])

/-- The scan-complete message assembled by `send_notification`
(lines 218-224), abstracted to the data it interpolates. -/
def notifMessage (domain : Str) (subCount liveCount : Nat) : Str :=
  "Subdomain Scan Complete! Target: ".data ++ domain ++
    " Subdomains Found: ".data ++ (toString subCount).data ++
    " Live Hosts: ".data ++ (toString liveCount).data

/-- The body of `send_notification`'s `try:` block (lines 226-266).
`gTelegramToken` models the module-level global `telegram_token` that
line 237 interpolates into the Telegram URL: the module never defines
such a global, so looking it up raises `NameError` (the variable
`bot_token` computed on line 236 from the destination identifier is
never used).  Discord and Slack post their payload to the destination
identifier verbatim.  A platform outside the three branches leaves
`response` unbound, so line 261 raises `NameError`.  The result of a
successful branch is the posted (url, payload) pair. -/
def sendNotificationBody (gTelegramToken : Option Str)
    (domain : Str) (subCount liveCount : Nat)
    (webhook_url platform : Str) : Except PyExc (Str × JObj) :=
  let message := notifMessage domain subCount liveCount
  if platform = "telegram".data then
    let payload : JObj :=
      [("chat_id".data, JVal.s ((splitOnChar '/' webhook_url).getLastD [])),
       ("text".data, JVal.s message),
       ("parse_mode".data, JVal.s "HTML".data)]
    let _bot_token :=
      ((splitOnChar '/' webhook_url).drop
        ((splitOnChar '/' webhook_url).length - 2)).headI
    match gTelegramToken with
    | none => .error .nameError
    | some t =>
      .ok ("https://api.telegram.org/bot".data ++ t ++ "/sendMessage".data, payload)
  else if platform = "discord".data then
    .ok (webhook_url,
      [("content".data, JVal.s message),
       ("username".data, JVal.s "Subdomain Scanner".data)])
  else if platform = "slack".data then
    .ok (webhook_url,
      [("text".data, JVal.s message),
       ("username".data, JVal.s "Subdomain Scanner".data),
       ("icon_emoji".data, JVal.s ":mag:".data)])
  else .error .nameError

/-- `send_notification` (lines 213-273): a falsy (empty) destination
identifier returns `False` at once; otherwise the body runs, any raised
exception is caught and turned into a `False` return with a warning, and
a dispatched request succeeds exactly when the response status
(`respCode`, modelling the external HTTP response) is 200.  Result:
(returned boolean, the dispatched request if one was made). -/
def send_notification (gTelegramToken : Option Str) (respCode : Int)
    (domain : Str) (subCount liveCount : Nat)
    (webhook_url platform : Str) : Bool × Option (Str × JObj) :=
  if webhook_url.isEmpty then (false, none)
  else
    match sendNotificationBody gTelegramToken domain subCount liveCount
        webhook_url platform with
    | .ok r => (decide (respCode = 200), some r)
    | .error _ => (false, none)

/-- The glob pattern `{domain}_*_subdomains.txt` used at line 354: the
name starts with `domain` plus an underscore, ends with
`_subdomains.txt`, and the two pieces do not overlap (`*` matches any —
possibly empty — run of filename characters). -/
def globMatch (domain name : Str) : Bool :=
  let pre := domain ++ ['_']
  let suf := "_subdomains.txt".data
  decide (pre.length + suf.length ≤ name.length) &&
    decide (name.take pre.length = pre) &&
    decide (name.drop (name.length - suf.length) = suf)

/-- Lexicographic comparison of filenames by character code, the order
Python's `sorted` uses on the globbed paths (all in one directory). -/
def lexLe : Str → Str → Bool
  | [], _ => true
  | _ :: _, [] => false
  | a :: as, b :: bs => decide (a < b) || (decide (a = b) && lexLe as bs)

/-- `sorted(existing_files)[-1]` (line 357): the lexicographically last
of the matching filenames, i.e. the maximum under `lexLe`. -/
def maxLex (l : List Str) : Str :=
  l.foldl (fun m f => if lexLe f m then m else f) []

/-- Association-list lookup modelling a directory: filename to content. -/
def lookupAssoc (d : List (Str × Str)) (k : Str) : Option Str :=
  (d.find? (fun p => decide (p.1 = k))).map (fun p => p.2)

/-- The matching filenames for a domain in an output directory listing
(line 354): `output_dir.glob(f"{args.domain}_*_subdomains.txt")`. -/
def existingFiles (domain : Str) (dir : List (Str × Str)) : List Str :=
  (dir.map Prod.fst).filter (globMatch domain)

/-- The parsed command-line arguments that drive `main` (lines 289-313).
`webhook` is `none` when `--webhook` was not passed; the argparse
namespace has no `webhook_url` attribute. -/
structure Args where
  domain : Str
  notify : Str
  webhook : Option Str
  skip_subfinder : Bool
  skip_httpx : Bool
deriving DecidableEq

/-- Python truthiness of the optional `--webhook` value. -/
def optTruthy : Option Str → Bool
  | none => false
  | some w => !w.isEmpty

/-- What the notification section of `main` did. -/
inductive NotifyExec where
  | attempted
  | skippedDefault
deriving DecidableEq

/-- The notification section of `main` (lines 410-424).  With a backend
selected and a truthy explicit webhook, `send_notification` is called
(its own handlers make it non-raising).  Otherwise, when a backend is
selected, the `elif` condition reads `args.webhook_url` — an attribute
argparse never defined — so evaluating it raises `AttributeError`; the
environment fallback `os.getenv(f"{args.notify.upper()}_WEBHOOK")` on
lines 416-424 sits behind that read and is unreachable.  With no backend
selected nothing happens. -/
def notifyStep (args : Args) : Except PyExc NotifyExec :=
  if decide (args.notify ≠ "none".data) && optTruthy args.webhook then
    .ok .attempted
  else if decide (args.notify ≠ "none".data) then
    .error .attributeError
  else
    .ok .skippedDefault

/-- Pipeline stages whose execution the embedding records. -/
inductive Stage where
  | subfinderS
  | httpxS
  | reportS
deriving DecidableEq

/-- The report assembled at lines 377-402: domain, the two counts, and a
detail block per live-host record. -/
structure Report where
  domain : Str
  subCount : Nat
  liveCount : Nat
  details : List JObj
deriving DecidableEq

/-- `ReportBuilder`: a pure function of the session results. -/
def buildReport (domain : Str) (subs : List Str) (live : List JObj) : Report :=
  ⟨domain, subs.length, live.length, live⟩

/-- How a whole invocation of the script ends: `sys.exit`/uncaught
exception with an exit code, or normal completion with the two result
sequences and the generated report. -/
inductive Outcome where
  | exited (code : Int)
  | completed (subdomains : List Str) (liveHosts : List JObj) (report : Report)
deriving DecidableEq

/-- A finished run: the stages that executed, and the outcome. -/
structure ScanRun where
  trace : List Stage
  outcome : Outcome
deriving DecidableEq

/-- Stage 1 of `main` (lines 345-363): either run subfinder, or — when
`--skip-subfinder` was passed — resume from the lexicographically last
file in the output directory matching `{domain}_*_subdomains.txt`,
loading its stripped non-blank lines; with no matching file, `sys.exit(1)`.
Result on success: (subdomain-file content for the probe stage, the
subdomain list, stages run). -/
def stage1 (args : Args) (subTool : ToolRes) (dir : List (Str × Str)) :
    Except Int (Option Str × List Str × List Stage) :=
  if !args.skip_subfinder then
    let r := run_subfinder subTool
    .ok (r.2.1, r.1, [Stage.subfinderS])
  else
    let existing := existingFiles args.domain dir
    if existing.isEmpty then .error 1
    else
      let content := (lookupAssoc dir (maxLex existing)).getD []
      .ok (some content, loadLines content, [])

/-- `main` (lines 275-431) wrapped in the `__main__` handler
(lines 433-441).  Tool-availability checks may `sys.exit(1)`; stage 1
produces the subdomain list (or exits); httpx runs only when not skipped
and the list is non-empty; the report is always built from the two
result sequences; the notification section may raise `AttributeError`,
which the `__main__` handler turns into exit code 1.  `instSub`/`instH`
model `check_tool_installed`, `hOut` the output file httpx wrote, `dir`
the output directory listing, and `J` the `json.loads` oracle. -/
def main (args : Args) (instSub instH : Bool) (subTool hTool : ToolRes)
    (hOut : Option Str) (dir : List (Str × Str)) (J : Str → Option JObj) :
    ScanRun :=
  if !args.skip_subfinder && !instSub then ⟨[], .exited 1⟩
  else if !args.skip_httpx && !instH then ⟨[], .exited 1⟩
  else
    match stage1 args subTool dir with
    | .error c => ⟨[], .exited c⟩
    | .ok (fc, subs, tr1) =>
      let lh :=
        if !args.skip_httpx && !subs.isEmpty then
          ((run_httpx J hTool fc hOut).1, [Stage.httpxS])
        else ([], [])
      let rep := buildReport args.domain subs lh.1
      match notifyStep args with
      | .error _ => ⟨tr1 ++ lh.2 ++ [Stage.reportS], .exited 1⟩
      | .ok _ => ⟨tr1 ++ lh.2 ++ [Stage.reportS], .completed subs lh.1 rep⟩

/-- A sample parsed httpx record, used as a concrete test point. -/
def sampleRec : JObj :=
  [("url".data, JVal.s "https://a.example.com".data),
   ("status_code".data, JVal.n 200)]

/-- A sample well-formed structured output line (a JSON object). -/
def jsonLine : Str :=
  "\x7b\"url\":\"https://a.example.com\",\"status_code\":200\x7d".data

/-- Concrete instance of the `json.loads` oracle for the test points:
it decodes the sample structured line and rejects everything else, which
agrees with `json.loads` at every input the witnesses use (in particular
plain hostnames and bare URLs are not valid JSON documents). -/
def Jc : Str → Option JObj :=
  fun s => if s = jsonLine then some sampleRec else none

/-- A two-file output directory used as a concrete test point for the
skip-stage resumption rule. -/
def dirC5 : List (Str × Str) :=
  [("ex.com_20240101_000000_subdomains.txt".data, "stale.ex.com\n".data),
   ("ex.com_20240102_000000_subdomains.txt".data, "a.ex.com\n\nb.ex.com\n".data)]

/-- The subdomain list loaded on resumption: the stripped non-blank
lines of the lexicographically last matching file (lines 357-360). -/
def resumedList (domain : Str) (dir : List (Str × Str)) : List Str :=
  loadLines ((lookupAssoc dir (maxLex (existingFiles domain dir))).getD [])

/-! ### Helper lemmas about splitting and joining lines -/

theorem splitOnChar_ne_nil (c : Char) (s : Str) : splitOnChar c s ≠ [] := by
  cases s with
  | nil => simp [splitOnChar]
  | cons d cs => simp only [splitOnChar]; split <;> simp

theorem not_mem_of_mem_splitOnChar (c : Char) (s : Str) :
    ∀ l ∈ splitOnChar c s, c ∉ l := by
  induction s with
  | nil =>
    intro l hl
    simp only [splitOnChar, List.mem_singleton] at hl
    simp [hl]
  | cons d cs ih =>
    intro l hl
    simp only [splitOnChar] at hl
    by_cases hd : d = c
    · rw [if_pos hd] at hl
      rcases List.mem_cons.mp hl with h | h
      · simp [h]
      · exact ih l h
    · rw [if_neg hd] at hl
      rcases hr : splitOnChar c cs with _ | ⟨m, ms⟩
      · exact absurd hr (splitOnChar_ne_nil c cs)
      · rw [hr] at hl
        simp only [List.headI_cons, List.tail_cons] at hl
        rcases List.mem_cons.mp hl with h | h
        · subst h
          intro hmem
          rcases List.mem_cons.mp hmem with h1 | h1
          · exact hd h1.symm
          · exact ih m (hr ▸ List.mem_cons_self m ms) h1
        · exact ih l (hr ▸ List.mem_cons_of_mem m h)

theorem splitOnChar_append (c : Char) (a rest : Str) (h : c ∉ a) :
    splitOnChar c (a ++ c :: rest) = a :: splitOnChar c rest := by
  induction a with
  | nil => simp [splitOnChar]
  | cons x a' ih =>
    have hx : ¬ x = c := fun e => h (e ▸ List.mem_cons_self x a')
    have ha' : c ∉ a' := fun hm => h (List.mem_cons_of_mem _ hm)
    have key := ih ha'
    rw [List.cons_append, splitOnChar]
    simp only [key, if_neg hx, List.headI_cons, List.tail_cons]

theorem splitOnChar_joinWith (c : Char) (u : List Str) (h : ∀ l ∈ u, c ∉ l) :
    splitOnChar c (joinWith c u) = u ++ [[]] := by
  induction u with
  | nil => simp [joinWith, splitOnChar]
  | cons l ls ih =>
    simp only [joinWith]
    rw [splitOnChar_append c l _ (h l (List.mem_cons_self l ls)),
      ih (fun x hx => h x (List.mem_cons_of_mem _ hx))]
    rfl

/-! ### Helper lemmas about the deduplication loop -/

theorem mem_dedupAcc (a : Str) : ∀ (l seen : List Str),
    a ∈ dedupAcc seen l ↔ a ∈ l ∧ a ∉ seen := by
  intro l
  induction l with
  | nil => intro seen; simp [dedupAcc]
  | cons x xs ih =>
    intro seen
    simp only [dedupAcc]
    by_cases hx : x ∈ seen
    · rw [if_pos hx, ih]
      constructor
      · rintro ⟨h1, h2⟩
        exact ⟨List.mem_cons_of_mem _ h1, h2⟩
      · rintro ⟨h1, h2⟩
        rcases List.mem_cons.mp h1 with rfl | h1
        · exact absurd hx h2
        · exact ⟨h1, h2⟩
    · rw [if_neg hx]
      have hih := ih (x :: seen)
      constructor
      · intro hmem
        rcases List.mem_cons.mp hmem with rfl | hmem'
        · exact ⟨List.mem_cons_self a xs, hx⟩
        · obtain ⟨h1, h2⟩ := hih.mp hmem'
          exact ⟨List.mem_cons_of_mem _ h1,
            fun hs => h2 (List.mem_cons_of_mem _ hs)⟩
      · rintro ⟨h1, h2⟩
        by_cases hax : a = x
        · subst hax
          exact List.mem_cons_self a _
        · rcases List.mem_cons.mp h1 with rfl | h1'
          · exact absurd rfl hax
          · refine List.mem_cons_of_mem _ (hih.mpr ⟨h1', ?_⟩)
            intro hs
            rcases List.mem_cons.mp hs with rfl | hs'
            · exact hax rfl
            · exact h2 hs'

theorem nodup_dedupAcc : ∀ (l seen : List Str), (dedupAcc seen l).Nodup := by
  intro l
  induction l with
  | nil => intro seen; simp [dedupAcc]
  | cons x xs ih =>
    intro seen
    simp only [dedupAcc]
    split
    · exact ih seen
    · refine List.nodup_cons.mpr ⟨?_, ih (x :: seen)⟩
      intro hmem
      exact ((mem_dedupAcc x xs (x :: seen)).mp hmem).2 (List.mem_cons_self x seen)

theorem count_dedupAcc (a : Str) : ∀ (l seen : List Str),
    (dedupAcc seen l).count a = if a ∈ l ∧ a ∉ seen then 1 else 0 := by
  intro l
  induction l with
  | nil => intro seen; simp [dedupAcc]
  | cons x xs ih =>
    intro seen
    simp only [dedupAcc]
    by_cases hx : x ∈ seen
    · rw [if_pos hx, ih seen]
      by_cases hax : a = x
      · subst hax
        simp [hx]
      · simp [hax, List.mem_cons]
    · rw [if_neg hx, List.count_cons, ih (x :: seen)]
      by_cases hax : a = x
      · subst hax
        simp [hx, List.mem_cons]
      · simp [hax, Ne.symm hax, List.mem_cons]

theorem count_dedup (a : Str) (l : List Str) :
    (dedup l).count a = if a ∈ l then 1 else 0 := by
  rw [dedup, count_dedupAcc a l []]
  simp

theorem specFirstOccur_cons (x : Str) (xs : List Str) :
    specFirstOccur (x :: xs) =
      x :: specFirstOccur (xs.filter (fun y => decide (y ≠ x))) := by
  rw [specFirstOccur.eq_def]

theorem dedupAcc_eq_specFirstOccur : ∀ (l seen : List Str),
    dedupAcc seen l = specFirstOccur (l.filter (fun a => decide (a ∉ seen))) := by
  intro l
  induction l with
  | nil => intro seen; simp [dedupAcc, specFirstOccur]
  | cons x xs ih =>
    intro seen
    by_cases hx : x ∈ seen
    · simp only [dedupAcc, if_pos hx, List.filter_cons]
      rw [ih seen]
      simp [hx]
    · have hfun : (fun a : Str => decide (a ≠ x) && decide (a ∉ seen))
          = (fun a : Str => decide (a ∉ x :: seen)) := by
        funext a
        by_cases hax : a = x <;> by_cases has : a ∈ seen <;>
          simp [hax, has, List.mem_cons]
      have hcons : (x :: xs).filter (fun a => decide (a ∉ seen))
          = x :: xs.filter (fun a => decide (a ∉ seen)) := by
        simp [List.filter_cons, hx]
      rw [hcons, specFirstOccur_cons, List.filter_filter, hfun,
        ← ih (x :: seen)]
      simp [dedupAcc, hx]

theorem dedupAcc_eq_self : ∀ (l seen : List Str), l.Nodup →
    (∀ a ∈ l, a ∉ seen) → dedupAcc seen l = l := by
  intro l
  induction l with
  | nil => intro seen _ _; rfl
  | cons x xs ih =>
    intro seen hnd hdisj
    have hx : x ∉ seen := hdisj x (List.mem_cons_self x xs)
    simp only [dedupAcc, if_neg hx]
    congr 1
    refine ih (x :: seen) (List.nodup_cons.mp hnd).2 ?_
    intro a ha hmem
    rcases List.mem_cons.mp hmem with rfl | h
    · exact (List.nodup_cons.mp hnd).1 ha
    · exact hdisj a (List.mem_cons_of_mem _ ha) h

/-! ### Helper lemmas about the collector's line list -/

theorem mem_subLines_props (stdout : Str) :
    ∀ l ∈ subLines stdout, '\n' ∉ l ∧ ¬(pyStrip l).isEmpty := by
  intro l hl
  rw [subLines, List.mem_filter] at hl
  exact ⟨not_mem_of_mem_splitOnChar _ _ _ hl.1, by simpa using hl.2⟩

theorem mem_collectSubdomains (stdout : Str) :
    ∀ l ∈ collectSubdomains stdout, l ∈ subLines stdout := by
  intro l hl
  exact ((mem_dedupAcc l _ []).mp hl).1

/-! ### Helper lemmas about Python file-line iteration -/

theorem splitOnChar_eq_singleton_nil (c : Char) (s : Str)
    (h : splitOnChar c s = [[]]) : s = [] := by
  cases s with
  | nil => rfl
  | cons d cs =>
    exfalso
    rw [splitOnChar] at h
    by_cases hd : d = c
    · rw [if_pos hd] at h
      exact splitOnChar_ne_nil c cs (List.cons.inj h).2
    · rw [if_neg hd] at h
      exact List.cons_ne_nil _ _ (List.cons.inj h).1

theorem pyLines_eq_nil_iff (s : Str) : pyLines s = [] ↔ s = [] := by
  constructor
  · intro h
    apply splitOnChar_eq_singleton_nil '\n' s
    rw [pyLines] at h
    rcases List.append_eq_nil.mp h with ⟨h1, h2⟩
    have hdrop : (splitOnChar '\n' s).dropLast = [] := List.map_eq_nil_iff.mp h1
    have hlast : (splitOnChar '\n' s).getLastD [] = [] := by
      by_contra hne
      rw [if_neg hne] at h2
      exact List.cons_ne_nil _ _ h2
    rcases hp : splitOnChar '\n' s with _ | ⟨p, ps⟩
    · exact absurd hp (splitOnChar_ne_nil _ _)
    · rw [hp] at hdrop hlast
      cases ps with
      | nil =>
        rw [List.getLastD_cons, List.getLastD_nil] at hlast
        rw [hlast]
      | cons q qs =>
        exfalso
        simp [List.dropLast] at hdrop
  · intro h
    subst h
    rfl

/-! ### Helper lemmas about the lexicographic file-name maximum -/

theorem lexLe_refl : ∀ s : Str, lexLe s s = true := by
  intro s
  induction s with
  | nil => rfl
  | cons a as ih => simp [lexLe, ih]

theorem lexLe_nil_right {s : Str} (h : lexLe s [] = true) : s = [] := by
  cases s with
  | nil => rfl
  | cons a as => simp [lexLe] at h

theorem lexLe_total : ∀ s t : Str, lexLe s t = true ∨ lexLe t s = true := by
  intro s
  induction s with
  | nil => intro t; left; rfl
  | cons a as ih =>
    intro t
    cases t with
    | nil => right; rfl
    | cons b bs =>
      rcases lt_trichotomy a b with h | h | h
      · left; simp [lexLe, h]
      · subst h
        rcases ih bs with h2 | h2
        · left; simp [lexLe, h2]
        · right; simp [lexLe, h2]
      · right; simp [lexLe, h]

theorem lexLe_trans : ∀ {s t u : Str},
    lexLe s t = true → lexLe t u = true → lexLe s u = true := by
  intro s
  induction s with
  | nil => intros; rfl
  | cons a as ih =>
    intro t u hst htu
    cases t with
    | nil => simp [lexLe] at hst
    | cons b bs =>
      cases u with
      | nil => simp [lexLe] at htu
      | cons c cs =>
        simp only [lexLe, Bool.or_eq_true, Bool.and_eq_true,
          decide_eq_true_eq] at hst htu ⊢
        rcases hst with h1 | ⟨h1, h1'⟩
        · rcases htu with h2 | ⟨h2, h2'⟩
          · exact Or.inl (lt_trans h1 h2)
          · exact Or.inl (h2 ▸ h1)
        · subst h1
          rcases htu with h2 | ⟨h2, h2'⟩
          · exact Or.inl h2
          · subst h2
            exact Or.inr ⟨rfl, ih h1' h2'⟩

theorem foldl_maxLex_ge : ∀ (l : List Str) (m : Str),
    lexLe m (l.foldl (fun m f => if lexLe f m then m else f) m) = true ∧
    ∀ f ∈ l, lexLe f (l.foldl (fun m f => if lexLe f m then m else f) m) = true := by
  intro l
  induction l with
  | nil => intro m; exact ⟨lexLe_refl m, by simp⟩
  | cons x xs ih =>
    intro m
    simp only [List.foldl_cons]
    have hmm' : lexLe m (if lexLe x m then m else x) = true := by
      by_cases h : lexLe x m = true
      · simp [h, lexLe_refl]
      · rcases lexLe_total x m with h1 | h1
        · exact absurd h1 h
        · simp [h, h1]
    have hxm' : lexLe x (if lexLe x m then m else x) = true := by
      by_cases h : lexLe x m = true
      · simp [h]
      · simp [h, lexLe_refl]
    obtain ⟨ih1, ih2⟩ := ih (if lexLe x m then m else x)
    refine ⟨lexLe_trans hmm' ih1, ?_⟩
    intro f hf
    rcases List.mem_cons.mp hf with rfl | hf'
    · exact lexLe_trans hxm' ih1
    · exact ih2 f hf'

theorem foldl_maxLex_mem : ∀ (l : List Str) (m : Str),
    l.foldl (fun m f => if lexLe f m then m else f) m ∈ m :: l := by
  intro l
  induction l with
  | nil => intro m; simp
  | cons x xs ih =>
    intro m
    simp only [List.foldl_cons]
    rcases List.mem_cons.mp (ih (if lexLe x m then m else x)) with h | h
    · rw [h]
      by_cases hc : lexLe x m = true
      · simp [hc, List.mem_cons]
      · simp [hc, List.mem_cons]
    · exact List.mem_cons_of_mem _ (List.mem_cons_of_mem _ h)

theorem maxLex_spec (l : List Str) (hl : l ≠ []) :
    maxLex l ∈ l ∧ ∀ f ∈ l, lexLe f (maxLex l) = true := by
  refine ⟨?_, (foldl_maxLex_ge l []).2⟩
  rcases List.mem_cons.mp (foldl_maxLex_mem l []) with h | h
  · rcases hl' : l with _ | ⟨e, es⟩
    · exact absurd hl' hl
    · subst hl'
      have he : lexLe e (maxLex (e :: es)) = true :=
        (foldl_maxLex_ge (e :: es) []).2 e (List.mem_cons_self e es)
      rw [maxLex] at he ⊢
      rw [h] at he ⊢
      rw [← lexLe_nil_right he]
      exact List.mem_cons_self _ _
  · exact h

/-! ### Claim theorems -/

/-- Claim C1: for every tool stdout, taking the produced hostname lines
with blank lines removed (`subLines`), the collector's returned sequence
(`collectSubdomains`) counts each distinct hostname exactly once (count
1 for members, 0 otherwise), equals the first-appearance deduplication
`specFirstOccur` of those lines (so the order is order of first
appearance), and the written file (`subfinderFile`) splits back on
newlines into exactly that sequence — one hostname per line with a
trailing newline — none of whose lines is blank. -/
theorem subenum_C1 (stdout : Str) :
    (∀ a : Str, (collectSubdomains stdout).count a =
        if a ∈ subLines stdout then 1 else 0) ∧
    collectSubdomains stdout = specFirstOccur (subLines stdout) ∧
    splitOnChar '\n' (subfinderFile stdout) = collectSubdomains stdout ++ [[]] ∧
    ∀ l ∈ collectSubdomains stdout, ¬(pyStrip l).isEmpty := by
  refine ⟨fun a => count_dedup a _, ?_, ?_, ?_⟩
  · rw [collectSubdomains, dedup, dedupAcc_eq_specFirstOccur (subLines stdout) []]
    congr 1
    apply List.filter_eq_self.mpr
    intro a _
    simp
  · rw [subfinderFile]
    apply splitOnChar_joinWith
    intro l hl
    exact (mem_subLines_props stdout l (mem_collectSubdomains stdout l hl)).1
  · intro l hl
    exact (mem_subLines_props stdout l (mem_collectSubdomains stdout l hl)).2

/-- Claim C8, counterexample: the collector writes its hostnames
unstripped, while the loader strips each line on reading, so the
round-trip is not the identity whenever a kept line carries surrounding
whitespace.  With tool stdout "x\n a" the collector returns
["x", " a"] and writes "x\n a\n", but loading and re-deduplicating the
written file yields ["x", "a"]. -/
theorem subenum_C8_counterexample :
    dedup (loadLines (subfinderFile ['x', '\n', ' ', 'a'])) ≠
      collectSubdomains ['x', '\n', ' ', 'a'] := by
  decide

/-- Claim C8 (amended): when every entry of the collector's deduplicated
sequence is already stripped (no surrounding whitespace), reading the
written file back — stripping each line and dropping blank lines — and
re-deduplicating preserving first-seen order is the identity on the
sequence. -/
theorem subenum_C8_amended (stdout : Str)
    (h : ∀ l ∈ collectSubdomains stdout, pyStrip l = l) :
    dedup (loadLines (subfinderFile stdout)) = collectSubdomains stdout := by
  have hnl : ∀ l ∈ collectSubdomains stdout, '\n' ∉ l :=
    fun l hl => (mem_subLines_props stdout l (mem_collectSubdomains stdout l hl)).1
  have hnb : ∀ l ∈ collectSubdomains stdout, ¬(pyStrip l).isEmpty :=
    fun l hl => (mem_subLines_props stdout l (mem_collectSubdomains stdout l hl)).2
  rw [loadLines, subfinderFile, splitOnChar_joinWith '\n' _ hnl,
    List.map_append, List.filter_append]
  have h2 : ((([] : Str) :: []).map pyStrip).filter (fun s => !s.isEmpty) = [] := rfl
  rw [h2, List.append_nil]
  have hmap : List.map pyStrip (collectSubdomains stdout) = collectSubdomains stdout := by
    conv_rhs => rw [← List.map_id (collectSubdomains stdout)]
    exact List.map_congr_left (fun a ha => h a ha)
  rw [hmap]
  have hfilter : (collectSubdomains stdout).filter (fun s => !s.isEmpty) =
      collectSubdomains stdout := by
    apply List.filter_eq_self.mpr
    intro a ha
    have hb := hnb a ha
    rw [h a ha] at hb
    simpa using hb
  rw [hfilter]
  exact dedupAcc_eq_self _ [] (nodup_dedupAcc _ []) (by simp)

/-- Claim C8 witness: a concrete whitespace-free stdout on which the
round-trip is checked to be the identity. -/
theorem subenum_C8_witness :
    dedup (loadLines (subfinderFile
        "a.example.com\nb.example.com\na.example.com".data)) =
      collectSubdomains "a.example.com\nb.example.com\na.example.com".data :=
  subenum_C8_amended "a.example.com\nb.example.com\na.example.com".data (by decide)

/-- Claim C3, counterexample: a non-empty line that fails structured
parsing does not always fall back to a minimal URL record — when it does
not start with "http" it is dropped.  A file with the well-formed
structured line and the non-JSON line "hello" yields one record, not
two. -/
theorem subenum_C3_counterexample :
    ¬(pyStrip "hello".data).isEmpty ∧
    Jc (pyStrip "hello".data) = none ∧
    parseHttpxOutput Jc (joinWith '\n' [jsonLine, "hello".data]) = [sampleRec] ∧
    (parseHttpxOutput Jc (joinWith '\n' [jsonLine, "hello".data])).length ≠ 2 := by
  exact ⟨by decide, by decide, by decide, by decide⟩

/-- Claim C3 (amended): for every non-empty line that fails structured
(JSON) parsing and starts with "http", the reader produces the minimal
record carrying the raw line under the `input` and `url` keys; hence a
file with one well-formed structured line and one plain-URL line yields
exactly two records, the second having the URL populated and the
status-code, content-length, title and technologies fields all absent. -/
theorem subenum_C3_amended (J : Str → Option JObj) (l1 l2 : Str) (d : JObj)
    (h1n : '\n' ∉ l1) (h2n : '\n' ∉ l2)
    (h1b : (pyStrip l1).isEmpty = false) (h1 : J (pyStrip l1) = some d)
    (h2b : (pyStrip l2).isEmpty = false) (h2 : J (pyStrip l2) = none)
    (h2h : startsWithHttp (pyStrip l2) = true) :
    (∀ raw : Str, (pyStrip raw).isEmpty = false → J (pyStrip raw) = none →
        startsWithHttp (pyStrip raw) = true →
        parseLine J raw = some (minimalRec (pyStrip raw))) ∧
    parseHttpxOutput J (joinWith '\n' [l1, l2]) = [d, minimalRec (pyStrip l2)] ∧
    lookupKey (minimalRec (pyStrip l2)) "url".data = some (JVal.s (pyStrip l2)) ∧
    lookupKey (minimalRec (pyStrip l2)) "input".data = some (JVal.s (pyStrip l2)) ∧
    lookupKey (minimalRec (pyStrip l2)) "status_code".data = none ∧
    lookupKey (minimalRec (pyStrip l2)) "content_length".data = none ∧
    lookupKey (minimalRec (pyStrip l2)) "title".data = none ∧
    lookupKey (minimalRec (pyStrip l2)) "technologies".data = none := by
  have hgen : ∀ raw : Str, (pyStrip raw).isEmpty = false → J (pyStrip raw) = none →
      startsWithHttp (pyStrip raw) = true →
      parseLine J raw = some (minimalRec (pyStrip raw)) := by
    intro raw hb hj hh
    simp [parseLine, hb, hj, hh]
  refine ⟨hgen, ?_, rfl, rfl, rfl, rfl, rfl, rfl⟩
  have hmem : ∀ l ∈ [l1, l2], '\n' ∉ l := by
    intro l hl
    rcases List.mem_cons.mp hl with rfl | hl2
    · exact h1n
    · rcases List.mem_cons.mp hl2 with rfl | hl3
      · exact h2n
      · simp at hl3
  have p1 : parseLine J l1 = some d := by simp [parseLine, h1b, h1]
  have p2 : parseLine J l2 = some (minimalRec (pyStrip l2)) := hgen l2 h2b h2 h2h
  have p3 : parseLine J [] = none := rfl
  rw [parseHttpxOutput, splitOnChar_joinWith '\n' [l1, l2] hmem]
  simp [List.filterMap_cons, p1, p2, p3]

/-- Claim C3 witness: the concrete oracle and lines on which the
two-line file is checked to produce the structured record followed by
the minimal URL record. -/
theorem subenum_C3_witness :
    parseHttpxOutput Jc (joinWith '\n' [jsonLine, "https://b.example.com".data]) =
      [sampleRec, minimalRec (pyStrip "https://b.example.com".data)] :=
  (subenum_C3_amended Jc jsonLine "https://b.example.com".data sampleRec
    (by decide) (by decide) (by decide) (by decide) (by decide) (by decide)
    (by decide)).2.1

/-- Claim C9: a non-empty line of the probe output that fails structured
parsing and does not start with "http" produces no record at all, and
inserting such a line anywhere in the output file leaves the returned
live-host list unchanged. -/
theorem subenum_C9 :
    (∀ (J : Str → Option JObj) (raw : Str),
        (pyStrip raw).isEmpty = false → J (pyStrip raw) = none →
        startsWithHttp (pyStrip raw) = false → parseLine J raw = none) ∧
    (∀ (J : Str → Option JObj) (pre post : List Str) (raw : Str),
        (∀ x ∈ pre, '\n' ∉ x) → (∀ x ∈ post, '\n' ∉ x) → '\n' ∉ raw →
        J (pyStrip raw) = none → startsWithHttp (pyStrip raw) = false →
        parseHttpxOutput J (joinWith '\n' (pre ++ raw :: post)) =
          parseHttpxOutput J (joinWith '\n' (pre ++ post))) := by
  constructor
  · intro J raw hb hj hh
    simp [parseLine, hb, hj, hh]
  · intro J pre post raw hpre hpost hraw hj hh
    have hall1 : ∀ x ∈ pre ++ raw :: post, '\n' ∉ x := by
      intro x hx
      rcases List.mem_append.mp hx with h | h
      · exact hpre x h
      · rcases List.mem_cons.mp h with rfl | h
        · exact hraw
        · exact hpost x h
    have hall2 : ∀ x ∈ pre ++ post, '\n' ∉ x := by
      intro x hx
      rcases List.mem_append.mp hx with h | h
      · exact hpre x h
      · exact hpost x h
    have hnone : parseLine J raw = none := by
      by_cases hE : (pyStrip raw).isEmpty = true
      · simp [parseLine, hE]
      · simp [parseLine, hE, hj, hh]
    rw [parseHttpxOutput, parseHttpxOutput,
      splitOnChar_joinWith _ _ hall1, splitOnChar_joinWith _ _ hall2]
    simp [List.filterMap_append, List.filterMap_cons, hnone]

/-- Claim C9 witness: the non-JSON, non-http line "not-a-url" produces
no record and adding it after the structured line changes nothing. -/
theorem subenum_C9_witness :
    parseLine Jc "not-a-url".data = none ∧
    parseHttpxOutput Jc (joinWith '\n' [jsonLine, "not-a-url".data]) =
      parseHttpxOutput Jc (joinWith '\n' [jsonLine]) :=
  ⟨subenum_C9.1 Jc "not-a-url".data (by decide) (by decide) (by decide),
   subenum_C9.2 Jc [jsonLine] [] "not-a-url".data (by decide) (by decide)
     (by decide) (by decide) (by decide)⟩

/-- Claim C6: when the subdomain-list file is missing the probe stage
returns no records and an error status line, when it exists but has zero
lines (equivalently, is empty) it returns no records and a warning
status line, and in both cases this is a normal return of the total
function `run_httpx` — no exception escapes. -/
theorem subenum_C6 :
    (∀ (J : Str → Option JObj) (tool : ToolRes) (outC : Option Str),
        run_httpx J tool none outC = ([], [StatusKind.error])) ∧
    (∀ (J : Str → Option JObj) (tool : ToolRes) (outC : Option Str),
        run_httpx J tool (some []) outC = ([], [StatusKind.warning])) ∧
    (∀ c : Str, (pyLines c).length = 0 ↔ c = []) := by
  refine ⟨fun J tool outC => rfl, fun J tool outC => rfl, fun c => ?_⟩
  rw [List.length_eq_zero]
  exact pyLines_eq_nil_iff c

/-- Claim C10, counterexample: on a tool-reported failure (exit code 2)
`run_httpx` does not return an empty list — it still returns the records
salvaged from the output file. -/
theorem subenum_C10_counterexample :
    (run_httpx Jc (ToolRes.ok 2 [] [])
        (some "sub.example.com\n".data)
        (some "https://x.example.com\n".data)).1 =
      [minimalRec "https://x.example.com".data] ∧
    [minimalRec "https://x.example.com".data] ≠ [] := by
  exact ⟨by decide, by decide⟩

/-- Claim C10 (amended): `run_subfinder` and `run_httpx` are total —
every failure path ends in a normal return.  `run_subfinder` returns an
empty list on timeout, on any other exception and on every non-zero
exit code; `run_httpx` returns an empty list on timeout and on any
other exception, but on a tool-reported failure (exit code outside
{0, 1}) it logs an error and still returns the records salvaged from
the output file; per-line parse failures only drop the single line. -/
theorem subenum_C10_amended :
    run_subfinder ToolRes.timeout = ([], none, [StatusKind.error]) ∧
    run_subfinder ToolRes.exc = ([], none, [StatusKind.error]) ∧
    (∀ (rc : Int) (out err : Str), rc ≠ 0 →
        run_subfinder (ToolRes.ok rc out err) = ([], none, [StatusKind.error])) ∧
    (∀ (J : Str → Option JObj) (inC outC : Option Str),
        (run_httpx J ToolRes.timeout inC outC).1 = [] ∧
        (run_httpx J ToolRes.exc inC outC).1 = []) ∧
    (∀ (J : Str → Option JObj) (rc : Int) (out err c oc : Str),
        rc ≠ 0 → rc ≠ 1 → (pyLines c).length ≠ 0 →
        run_httpx J (ToolRes.ok rc out err) (some c) (some oc) =
          (parseHttpxOutput J oc, [StatusKind.error, StatusKind.success])) := by
  refine ⟨rfl, rfl, ?_, ?_, ?_⟩
  · intro rc out err h
    simp [run_subfinder, h]
  · intro J inC outC
    cases inC with
    | none => exact ⟨rfl, rfl⟩
    | some c =>
      by_cases hc : (pyLines c).length = 0
      · constructor <;> simp [run_httpx, hc]
      · constructor <;> simp [run_httpx, run_httpxBody, hc]
  · intro J rc out err c oc h0 h1 hc
    simp [run_httpx, run_httpxBody, hc, h0, h1]

/-- Claim C10 witness: concrete failure inputs — subfinder exit code 2
returns the empty list, and httpx exit code 2 still salvages the one
record present in its output file. -/
theorem subenum_C10_witness :
    run_subfinder (ToolRes.ok 2 [] []) = ([], none, [StatusKind.error]) ∧
    run_httpx Jc (ToolRes.ok 2 [] []) (some "sub.example.com\n".data)
        (some "https://y.example.com\n".data) =
      (parseHttpxOutput Jc "https://y.example.com\n".data,
        [StatusKind.error, StatusKind.success]) :=
  ⟨subenum_C10_amended.2.2.1 2 [] [] (by decide),
   subenum_C10_amended.2.2.2.2 Jc 2 [] [] "sub.example.com\n".data
     "https://y.example.com\n".data (by decide) (by decide) (by decide)⟩

/-- Claim C2, evaluated on the code: for the Telegram backend with
identifier "token123/chatID456" the code does extract chatID456 as the
last '/'-segment and token123 as the segment before it, but the delivery
URL interpolates the undefined module global `telegram_token` instead of
the extracted credential, so the call raises `NameError`, dispatches
nothing, and returns `False` — token123 is never embedded in any URL.
The Discord and Slack branches do post to the identifier verbatim. -/
theorem subenum_C2_code :
    (splitOnChar '/' "token123/chatID456".data).getLastD [] = "chatID456".data ∧
    ((splitOnChar '/' "token123/chatID456".data).drop
        ((splitOnChar '/' "token123/chatID456".data).length - 2)).headI =
      "token123".data ∧
    send_notification none 200 "example.com".data 3 2
        "token123/chatID456".data "telegram".data = (false, none) ∧
    (send_notification none 200 "example.com".data 3 2
        "https://hooks.example/abc".data "discord".data).2.map Prod.fst =
      some "https://hooks.example/abc".data ∧
    (send_notification none 200 "example.com".data 3 2
        "https://hooks.example/xyz".data "slack".data).2.map Prod.fst =
      some "https://hooks.example/xyz".data := by
  exact ⟨by decide, by decide, by decide, by decide, by decide⟩

/-- Claim C4, evaluated on the code: with a backend selected and no
explicit webhook, the notification section reads `args.webhook_url`, an
attribute argparse never defined, so `main` raises `AttributeError` and
the `__main__` handler exits with code 1 — the environment fallback
`TELEGRAM_WEBHOOK` is unreachable and the run does not complete
successfully.  (The model has no environment parameter because the code
can never reach the `os.getenv` call.) -/
theorem subenum_C4_code (dir : List (Str × Str)) (J : Str → Option JObj)
    (hOut : Option Str) (hTool : ToolRes) :
    main ⟨"example.com".data, "telegram".data, none, false, true⟩
        true true ToolRes.timeout hTool hOut dir J =
      ⟨[Stage.subfinderS, Stage.reportS], Outcome.exited 1⟩ := by
  rfl

/-- Claim C7: when the enumeration tool times out, `run_subfinder`
yields an empty subdomain list, the probe stage is skipped for lack of
input, and the run still reaches report generation and completes
normally with a report carrying zero subdomain and live-host counts. -/
theorem subenum_C7 (domain : Str) (hTool : ToolRes) (hOut : Option Str)
    (dir : List (Str × Str)) (J : Str → Option JObj) :
    main ⟨domain, "none".data, none, false, false⟩ true true ToolRes.timeout
        hTool hOut dir J =
      ⟨[Stage.subfinderS, Stage.reportS],
        Outcome.completed [] [] (buildReport domain [] [])⟩ ∧
    (buildReport domain [] []).subCount = 0 ∧
    (buildReport domain [] []).liveCount = 0 := by
  exact ⟨rfl, rfl, rfl⟩

/-- Claim C5: when the enumeration stage is skipped, the session picks
the lexicographically last file matching `{domain}_*_subdomains.txt` —
`maxLex` of the matching names, which is a matching name and is
`lexLe`-above every other one — and loads its stripped non-blank lines
as the subdomain list; when no file matches, the process exits with
code 1 before any further stage runs (empty stage trace, so the probe
stage never executed). -/
theorem subenum_C5 (domain : Str) (dir : List (Str × Str)) (instSub : Bool)
    (subTool hTool : ToolRes) (hOut : Option Str) (J : Str → Option JObj) :
    (existingFiles domain dir = [] →
      main ⟨domain, "none".data, none, true, false⟩ instSub true subTool hTool
          hOut dir J = ⟨[], Outcome.exited 1⟩) ∧
    (existingFiles domain dir ≠ [] →
      maxLex (existingFiles domain dir) ∈ existingFiles domain dir ∧
      (∀ f ∈ existingFiles domain dir,
          lexLe f (maxLex (existingFiles domain dir)) = true) ∧
      main ⟨domain, "none".data, none, true, true⟩ instSub true subTool hTool
          hOut dir J =
        ⟨[Stage.reportS],
          Outcome.completed (resumedList domain dir) []
            (buildReport domain (resumedList domain dir) [])⟩) := by
  constructor
  · intro hempty
    have h1 : stage1 ⟨domain, "none".data, none, true, false⟩ subTool dir =
        .error 1 := by
      simp [stage1, hempty]
    simp [main, h1]
  · intro hne
    obtain ⟨hmem, hge⟩ := maxLex_spec (existingFiles domain dir) hne
    refine ⟨hmem, hge, ?_⟩
    have h1 : stage1 ⟨domain, "none".data, none, true, true⟩ subTool dir =
        .ok (some ((lookupAssoc dir (maxLex (existingFiles domain dir))).getD []),
          resumedList domain dir, []) := by
      simp [stage1, resumedList, List.isEmpty_iff, hne]
    simp [main, h1, notifyStep, optTruthy]

/-- Claim C5 witness: with an empty directory the resumption exits with
code 1; with the two matching timestamped files of `dirC5` the
lexicographically later one is selected and its non-blank stripped lines
become the subdomain list. -/
theorem subenum_C5_witness :
    main ⟨"ex.com".data, "none".data, none, true, false⟩ true true
        ToolRes.exc ToolRes.exc none [] Jc = ⟨[], Outcome.exited 1⟩ ∧
    main ⟨"ex.com".data, "none".data, none, true, true⟩ true true
        ToolRes.exc ToolRes.exc none dirC5 Jc =
      ⟨[Stage.reportS],
        Outcome.completed ["a.ex.com".data, "b.ex.com".data] []
          (buildReport "ex.com".data ["a.ex.com".data, "b.ex.com".data] [])⟩ := by
  constructor
  · exact (subenum_C5 "ex.com".data [] true ToolRes.exc ToolRes.exc none Jc).1
      (by decide)
  · have h := ((subenum_C5 "ex.com".data dirC5 true ToolRes.exc ToolRes.exc
      none Jc).2 (by decide)).2.2
    rw [h]
    decide

end SubEnum
